import Mathlib

/-!
Shallow embedding of the DXF_Viewer repository (files `dxf_viewer_qt.py` and
`dxf_morphology.py`) for checking its natural-language specification.

Conventions of the embedding:
* Python floats are modelled as rationals (`ℚ`); every arithmetic operation
  performed by the code is mirrored exactly over `ℚ`.
* `np.pi` / `math.pi` (an IEEE-754 double) is modelled by the exact rational
  value of that double, `npPi`.
* Python `int(x)` (truncation toward zero) is modelled by `pyInt`.
* External primitives (OpenCV's `findContours`, `contourArea`, `arcLength`,
  `moments`) are out of scope per the spec; their outputs are carried as data
  on the `Contour` records that the repository's own logic consumes.
-/

namespace DXFViewer

/-- The mutable view state of `DXFRenderer` (`dxf_viewer_qt.py`):
`zoom_factor`, `pan_offset_x`, `pan_offset_y`.  The `QTransform` built by
`update_transform` is `translate(pan_x, pan_y)` then `scale(zoom, -zoom)`,
i.e. scene `(x, y)` maps to device `(pan_x + zoom·x, pan_y - zoom·y)`. -/
structure ViewState where
  zoom_factor : ℚ
  pan_offset_x : ℚ
  pan_offset_y : ℚ
deriving Repr, DecidableEq

/-- Forward map of the transform built by `DXFRenderer.update_transform`:
scene point to device point. -/
def toDevice (s : ViewState) (p : ℚ × ℚ) : ℚ × ℚ :=
  (s.pan_offset_x + s.zoom_factor * p.1, s.pan_offset_y - s.zoom_factor * p.2)

/-- Inverse map (`self.transform.inverted()[0].map` in `wheelEvent`):
device point to scene point. -/
def toScene (s : ViewState) (p : ℚ × ℚ) : ℚ × ℚ :=
  ((p.1 - s.pan_offset_x) / s.zoom_factor, (s.pan_offset_y - p.2) / s.zoom_factor)

/-- `DXFRenderer.wheelEvent` (`dxf_viewer_qt.py` lines 453-488): the zoom
step is the fixed factor 1.1; the new zoom is clamped to `[0.01, 100]`; the
scene point under the mouse is read off through the inverted old transform,
and the pan offsets are recomputed so that this scene point stays under the
mouse.  `zoomIn` is `event.angleDelta().y() > 0`. -/
def wheelEvent (s : ViewState) (mouse : ℚ × ℚ) (zoomIn : Bool) : ViewState :=
  let zoom_delta : ℚ := 11 / 10
  let new_zoom0 : ℚ := if zoomIn then s.zoom_factor * zoom_delta else s.zoom_factor / zoom_delta
  let new_zoom : ℚ := max (1 / 100) (min 100 new_zoom0)
  let old_pos : ℚ × ℚ := toScene s mouse
  { zoom_factor := new_zoom
    pan_offset_x := mouse.1 - old_pos.1 * new_zoom
    pan_offset_y := mouse.2 + old_pos.2 * new_zoom }

/-- The exact rational value of the IEEE-754 double `math.pi` / `np.pi`
(`884279719003555 / 2^48`). -/
def npPi : ℚ := 884279719003555 / 281474976710656

/-- Python `int(x)`: truncation toward zero. -/
def pyInt (q : ℚ) : ℤ := if 0 ≤ q then ⌊q⌋ else -⌊-q⌋

/-- The entity variants whose geometry `DXFRenderer.load_dxf` inspects when
collecting bounds.  Coordinates are scene-space rationals.  `other` stands
for any entity type outside the handled set (it contributes no coordinates,
per the fall-through of the `if`/`elif` chain). -/
inductive Entity where
  | line (startP endP : ℚ × ℚ)
  | circle (center : ℚ × ℚ) (radius : ℚ)
  | arc (center : ℚ × ℚ) (radius : ℚ) (startAngle endAngle : ℚ)
  | polyline (points : List (ℚ × ℚ)) (closed : Bool)
  | spline (controlPoints : List (ℚ × ℚ))
  | ellipse (center : ℚ × ℚ) (majorRadius : ℚ) (ratio : ℚ)
  | point (location : ℚ × ℚ)
  | text (insert : ℚ × ℚ)
  | solid (vertices : List (ℚ × ℚ))
  | hatch (paths : List (List (ℚ × ℚ)))
  | other
deriving Repr, DecidableEq

/-- The x-coordinates one entity appends to `x_coords` in
`DXFRenderer.load_dxf` (lines 84-161).  For the ellipse the code computes
`major_radius = math.sqrt(ax² + ay²)` (an external real square root) and
appends `center ± major_radius` / `center ± major_radius·ratio`; the
`Entity.ellipse` variant carries this already-evaluated `majorRadius`
directly, since square roots of rationals need not be rational. -/
def entityXCoords : Entity → List ℚ
  | .line s e => [s.1, e.1]
  | .circle c r => [c.1 - r, c.1 + r]
  | .arc c r _ _ => [c.1 - r, c.1 + r]
  | .polyline ps _ => ps.map (·.1)
  | .spline ps => ps.map (·.1)
  | .ellipse c mr _ => [c.1 - mr, c.1 + mr]
  | .point p => [p.1]
  | .text p => [p.1]
  | .solid vs => vs.map (·.1)
  | .hatch paths => (paths.map (fun path => path.map (·.1))).flatten
  | .other => []

/-- The y-coordinates one entity appends to `y_coords` in
`DXFRenderer.load_dxf` (lines 84-161). -/
def entityYCoords : Entity → List ℚ
  | .line s e => [s.2, e.2]
  | .circle c r => [c.2 - r, c.2 + r]
  | .arc c r _ _ => [c.2 - r, c.2 + r]
  | .polyline ps _ => ps.map (·.2)
  | .spline ps => ps.map (·.2)
  | .ellipse c mr ratio => [c.2 - mr * ratio, c.2 + mr * ratio]
  | .point p => [p.2]
  | .text p => [p.2]
  | .solid vs => vs.map (·.2)
  | .hatch paths => (paths.map (fun path => path.map (·.2))).flatten
  | .other => []

/-- The full `x_coords` list accumulated over the entity sequence. -/
def xcoords (es : List Entity) : List ℚ := (es.map entityXCoords).flatten

/-- The full `y_coords` list accumulated over the entity sequence. -/
def ycoords (es : List Entity) : List ℚ := (es.map entityYCoords).flatten

/-- Scene bounds `(min_x, min_y, max_x, max_y)` as stored in `self.bounds`. -/
structure Bounds where
  min_x : ℚ
  min_y : ℚ
  max_x : ℚ
  max_y : ℚ
deriving Repr, DecidableEq

/-- Bounds computation of `DXFRenderer.load_dxf` (lines 163-171): when both
coordinate lists are non-empty, the min/max of each; otherwise the fixed
fallback box `(-100, -100, 100, 100)`. -/
def boundsCollector (es : List Entity) : Bounds :=
  match xcoords es, ycoords es with
  | x :: xs, y :: ys =>
      { min_x := xs.foldl min x, min_y := ys.foldl min y
        max_x := xs.foldl max x, max_y := ys.foldl max y }
  | _, _ => { min_x := -100, min_y := -100, max_x := 100, max_y := 100 }

/-- `DXFRenderer.reset_view` (lines 188-223), composed with the bounds that
`load_dxf` stored for the same entity sequence.  The guard
`if not self.dxf_entities: return` makes it a no-op on an empty sequence.
Otherwise: zoom is the minimum of the two axis-fit ratios with an 80-pixel
total margin per axis when the bounds are non-degenerate (no clamping), and
`1.0` when degenerate; the pan maps the bounds' center to the viewport's
center. -/
def reset_view (es : List Entity) (s : ViewState) (widget_width widget_height : ℚ) :
    ViewState :=
  if es.isEmpty then s
  else
    let b := boundsCollector es
    let dxf_width := b.max_x - b.min_x
    let dxf_height := b.max_y - b.min_y
    let zoom : ℚ :=
      if 0 < dxf_width ∧ 0 < dxf_height then
        min ((widget_width - 80) / dxf_width) ((widget_height - 80) / dxf_height)
      else 1
    let center_x := (b.min_x + b.max_x) / 2
    let center_y := (b.min_y + b.max_y) / 2
    { zoom_factor := zoom
      pan_offset_x := widget_width / 2 - center_x * zoom
      pan_offset_y := widget_height / 2 + center_y * zoom }

/-- Number of interpolation steps used by the ARC arm of
`DXFRenderer.draw_entity` (lines 288-315):
`steps = max(20, int(radius * abs(end_rad - start_rad) * 0.5))`, after the
normalization `end_rad += 2π` when `end_rad < start_rad`.  `radius`,
`startRad` and `endRad` are the entity's scene-space radius and angles in
radians; the renderer state `s` is in scope (as `self` is in the source) but
the computation never reads `s.zoom_factor`. -/
def drawEntityArcSteps (s : ViewState) (radius startRad endRad : ℚ) : ℤ :=
  let endRad1 : ℚ := if endRad < startRad then endRad + 2 * npPi else endRad
  max 20 (pyInt (radius * |endRad1 - startRad| * (1 / 2)))

/-! ## Morphology module (`dxf_morphology.py`) -/

/-- One contour of the forest returned by the external contour-finding
primitive `cv2.findContours(..., RETR_CCOMP, ...)`, together with the values
the external OpenCV primitives report for it: `parent` is `hierarchy[0][i][3]`
(`-1` for a parentless contour), `area` is `cv2.contourArea`, `per` is
`cv2.arcLength(..., True)`, and `m00`/`m10`/`m01` are the raw moments from
`cv2.moments`.  The repository's own logic only reads these values. -/
structure Contour where
  parent : ℤ
  area : ℚ
  per : ℚ
  m00 : ℚ
  m10 : ℚ
  m01 : ℚ
deriving Repr, DecidableEq

/-- Default contour used with `List.getD` when stating index-based
properties of the classifier; its parent index `-2` matches no real parent
reference, so out-of-range lookups never satisfy any parent predicate. -/
def defaultContour : Contour := ⟨-2, 0, 0, 0, 0, 0⟩

/-- Stable insertion of an element into a list already sorted in descending
order of `key`, placing the new element before the first strictly-smaller
key (an element inserted later among equal keys therefore keeps its later
position).  Together with `pySortDesc` this models Python's
`list.sort(reverse=True, key=...)`, which is documented to be stable. -/
def pyInsertDesc (key : α → ℕ) (a : α) : List α → List α
  | [] => [a]
  | b :: bs => if key b ≤ key a then a :: b :: bs else b :: pyInsertDesc key a bs

/-- Stable descending sort by `key`; models
`contours_counts.sort(reverse=True, key=lambda x: x[0])`
(`dxf_morphology.py` line 73). -/
def pySortDesc (key : α → ℕ) : List α → List α
  | [] => []
  | a :: as0 => pyInsertDesc key a (pySortDesc key as0)

/-- One strategy entry of the `contours_counts` list built in
`process_dxf_image` (lines 66-70): contour count, contour forest, and the
strategy's display name (the binary raster component is omitted: it is an
opaque external image). -/
structure StrategyEntry where
  count : ℕ
  contours : List Contour
  name : String
deriving Repr, DecidableEq

/-- The strategy-selection logic of `process_dxf_image` (lines 60-78): build
the `contours_counts` list in the fixed order
[fixed inverted threshold, adaptive threshold, Otsu threshold], sort it by
contour count in descending order with Python's stable sort, and take the
first entry.  The three contour forests are the outputs of the external
`cv2.findContours` on the three binarized rasters. -/
def processSelect (inv adapt otsu : List Contour) : StrategyEntry :=
  let contours_counts : List StrategyEntry :=
    [ { count := inv.length, contours := inv, name := "Umbral invertido" }
    , { count := adapt.length, contours := adapt, name := "Umbral adaptativo" }
    , { count := otsu.length, contours := otsu, name := "Umbral Otsu" } ]
  ((pySortDesc StrategyEntry.count contours_counts).headD
    { count := 0, contours := [], name := "" })

/-- `process_dxf_image` reduced to the data the caller consumes (lines
60-93): the selected contour forest and its hierarchy (`none` when no
strategy found any contour, per the early return at line 83). -/
def process_dxf_image (inv adapt otsu : List Contour) :
    List Contour × Option (List ℤ) :=
  let best := processSelect inv adapt otsu
  if best.count = 0 then ([], none)
  else (best.contours, some (best.contours.map Contour.parent))

/-- One record of a `detalles` list in the metrics dictionary
(`dxf_to_morphology` lines 215-222 and 264-271). -/
structure Detalle where
  id : ℕ
  area : ℚ
  perimetro : ℚ
  circularidad : ℚ
  centro_x : ℤ
  centro_y : ℤ
deriving Repr, DecidableEq

/-- Per-contour metric computation of `dxf_to_morphology` (lines 189-222,
identical in the internal-contour loop at lines 239-271): circularity is
`4π·area/perimeter²` guarded by `perimetro > 0` (else `0`), and the centroid
is `(int(m10/m00), int(m01/m00))` guarded by `m00 != 0` (else `(0, 0)`). -/
def detalleOf (idx : ℕ) (c : Contour) : Detalle :=
  { id := idx
    area := c.area
    perimetro := c.per
    circularidad := if 0 < c.per then 4 * npPi * c.area / (c.per * c.per) else 0
    centro_x := if c.m00 ≠ 0 then pyInt (c.m10 / c.m00) else 0
    centro_y := if c.m00 ≠ 0 then pyInt (c.m01 / c.m00) else 0 }

/-- One tier of the metrics dictionary (`contornos_externos` /
`contornos_internos`). -/
structure TierMetrics where
  cantidad : ℕ
  perimetro_total : ℚ
  area_total : ℚ
  detalles : List Detalle
deriving Repr, DecidableEq

/-- The zero-initialized tier metrics (`dxf_to_morphology` lines 128-141). -/
def emptyTier : TierMetrics :=
  { cantidad := 0, perimetro_total := 0, area_total := 0, detalles := [] }

/-- The accumulation loop of `dxf_to_morphology` over the contours of one
tier (externals: parent `= -1`; internals: parent `≠ -1`): each matching
contour gets a detail record with a tier-local running id, and the count and
the perimeter/area totals are accumulated. -/
def buildTier (sel : List Contour) : TierMetrics :=
  { cantidad := sel.length
    perimetro_total := (sel.map Contour.per).sum
    area_total := (sel.map Contour.area).sum
    detalles := sel.enum.map (fun p => detalleOf p.1 p.2) }

/-- Abstraction of one output image of `dxf_to_morphology`: what the image
was built from, including any diagnostic text drawn onto it with
`cv2.putText`. -/
inductive ImageContent where
  | fromInput
  | grayscale
  | blank (overlay : String)
  | drawn (tag : String)
  | errorOverlay (msg : String)
deriving Repr, DecidableEq

/-- The six entries of the `images` sub-dictionary returned by
`dxf_to_morphology`. -/
structure Images where
  original : ImageContent
  binaria : ImageContent
  contornos_externos : ImageContent
  contornos_internos : ImageContent
  todos_contornos : ImageContent
  contornos_rellenos : ImageContent
deriving Repr, DecidableEq

/-- The dictionary returned by `dxf_to_morphology`.  Python dictionaries may
differ in their key sets across return paths, so the `contours` and
`hierarchy` keys are modelled as `Option`-wrapped fields: `none` means the
key is absent from the returned dictionary, `some v` means the key is
present with value `v` (where the hierarchy value itself is an `Option`,
since the error path stores the Python value `None` under a present key). -/
structure MorphResult where
  images : Images
  metrics : TierMetrics × TierMetrics
  contoursKey : Option (List Contour)
  hierarchyKey : Option (Option (List ℤ))
deriving Repr, DecidableEq

/-- `dxf_to_morphology` (lines 95-341).  `inputValid` is false exactly when
`dxf_image is None or dxf_image.size == 0`, which raises `ValueError` inside
the `try` and lands in the `except` branch (lines 307-341); the three forest
arguments are the external contour-finder's outputs for the three
binarization strategies.  The three return paths are:
* error path (lines 326-341): error-marked images, zero metrics, and the
  `contours`/`hierarchy` keys present with values `[]` / `None`;
* no-contours path (lines 146-165): blank tier images carrying the overlay
  text `NO SE ENCONTRARON CONTORNOS`, zero metrics, and no
  `contours`/`hierarchy` keys at all;
* success path (lines 167-305): drawn tier images, accumulated per-tier
  metrics, and the `contours`/`hierarchy` keys present. -/
def dxf_to_morphology (inputValid : Bool) (inv adapt otsu : List Contour) :
    MorphResult :=
  if inputValid = false then
    { images :=
        { original := .errorOverlay "ERROR"
          binaria := .blank ""
          contornos_externos := .errorOverlay "ERROR"
          contornos_internos := .errorOverlay "ERROR"
          todos_contornos := .errorOverlay "ERROR"
          contornos_rellenos := .blank "" }
      metrics := (emptyTier, emptyTier)
      contoursKey := some []
      hierarchyKey := some none }
  else
    let pr := process_dxf_image inv adapt otsu
    let contours := pr.1
    if contours.isEmpty then
      { images :=
          { original := .fromInput
            binaria := .grayscale
            contornos_externos := .blank "NO SE ENCONTRARON CONTORNOS"
            contornos_internos := .blank "NO SE ENCONTRARON CONTORNOS"
            todos_contornos := .blank "NO SE ENCONTRARON CONTORNOS"
            contornos_rellenos := .grayscale }
        metrics := (emptyTier, emptyTier)
        contoursKey := none
        hierarchyKey := none }
    else
      { images :=
          { original := .fromInput
            binaria := .grayscale
            contornos_externos := .drawn "CONTORNOS EXTERNOS"
            contornos_internos := .drawn "CONTORNOS INTERNOS"
            todos_contornos := .drawn "TODOS LOS CONTORNOS"
            contornos_rellenos := .drawn "CONTORNOS RELLENOS" }
        metrics :=
          ( buildTier (contours.filter (fun c => c.parent = -1))
          , buildTier (contours.filter (fun c => ¬ c.parent = -1)) )
        contoursKey := some contours
        hierarchyKey := some pr.2 }

/-! ## Contour hierarchy classifier
(`MorphologyResultsWindow.create_holes_tab` lines 863-949 and
`create_hole_children_tab` lines 951-1061 of `dxf_viewer_qt.py`) -/

/-- The main-exterior search loop (lines 880-892, repeated verbatim at lines
968-980): iterate over the forest with `max_area = 0` and
`main_exterior_index = -1`; a parentless contour replaces the current best
only when its area is strictly greater than `max_area`.  `i` is the index of
the first contour of `cs` in the full forest; `maxArea`/`idx` are the
accumulator. -/
def scanMain : List Contour → ℕ → ℚ → ℤ → ℚ × ℤ
  | [], _, maxArea, idx => (maxArea, idx)
  | c :: cs, i, maxArea, idx =>
      if c.parent = -1 ∧ maxArea < c.area then scanMain cs (i + 1) c.area (i : ℤ)
      else scanMain cs (i + 1) maxArea idx

/-- `main_exterior_index` as computed by `create_holes_tab` /
`create_hole_children_tab` (`-1` when no parentless contour has positive
area). -/
def mainExteriorIdx (cs : List Contour) : ℤ := (scanMain cs 0 0 (-1)).2

/-- The hole-collection loop (lines 894-899 / 982-987): the indices `i` with
`hierarchy[0][i][3] == main_exterior_index`, in forest order. -/
def holeIndices (cs : List Contour) : List ℕ :=
  (cs.enum.filter (fun p => p.2.parent = mainExteriorIdx cs)).map Prod.fst

/-- The hole-children loop (lines 989-1012): the indices `i` whose parent
index is a member of `hole_indices`, in forest order. -/
def holeChildIndices (cs : List Contour) : List ℕ :=
  (cs.enum.filter (fun p => (holeIndices cs).any (fun j => (j : ℤ) = p.2.parent))).map
    Prod.fst

/-! ## Theorems -/

/-- C1: for every view state with positive zoom, every device point and
either wheel direction, the scene point under the device point is unchanged
by `wheelEvent`: `toScene` after the zoom operation agrees with `toScene`
before it (exactly, in the rational model). -/
theorem c1_cursor_anchor (s : ViewState) (mouse : ℚ × ℚ) (zoomIn : Bool)
    (h : 0 < s.zoom_factor) :
    toScene (wheelEvent s mouse zoomIn) mouse = toScene s mouse := by
  have hsz : s.zoom_factor ≠ 0 := ne_of_gt h
  have hz' : max (1 / 100)
      (min 100 (if zoomIn then s.zoom_factor * (11 / 10) else s.zoom_factor / (11 / 10))) ≠ 0 :=
    ne_of_gt (lt_of_lt_of_le (by norm_num) (le_max_left _ _))
  simp only [wheelEvent, toScene]
  rw [Prod.mk.injEq]
  constructor
  · field_simp
    ring
  · field_simp
    ring

/-- Witness for C1 at the initial view state, mouse point `(3, 4)`,
zooming in. -/
theorem c1_cursor_anchor_witness :
    toScene (wheelEvent ⟨1, 0, 0⟩ (3, 4) true) (3, 4) = toScene ⟨1, 0, 0⟩ (3, 4) :=
  c1_cursor_anchor ⟨1, 0, 0⟩ (3, 4) true (by norm_num)

/-- C3 counterexample: `reset_view` does not clamp.  A single line entity of
extent `1/1000` on each axis in a 600×400 viewport makes `reset_view` store
`zoom_factor = 320000`, far outside the claimed range `[0.01, 100]`. -/
theorem c3_counterexample :
    (reset_view [Entity.line (0, 0) (1 / 1000, 1 / 1000)] ⟨1, 0, 0⟩ 600 400).zoom_factor
        = 320000 ∧
    ¬ (reset_view [Entity.line (0, 0) (1 / 1000, 1 / 1000)] ⟨1, 0, 0⟩ 600 400).zoom_factor
        ≤ 100 := by
  norm_num [reset_view, boundsCollector, xcoords, ycoords, entityXCoords, entityYCoords]

/-- C3 amended: only `wheelEvent` clamps the zoom — its result always lies
in `[0.01, 100]` — while `reset_view` stores the unclamped minimum of the
two axis-fit ratios whenever the entity sequence is non-empty and its bounds
are non-degenerate (and that value can fall outside `[0.01, 100]`). -/
theorem c3_zoom_clamp_amended :
    (∀ (s : ViewState) (mouse : ℚ × ℚ) (zoomIn : Bool),
      1 / 100 ≤ (wheelEvent s mouse zoomIn).zoom_factor ∧
        (wheelEvent s mouse zoomIn).zoom_factor ≤ 100) ∧
    (∀ (es : List Entity) (s : ViewState) (w h : ℚ),
      es ≠ [] →
      0 < (boundsCollector es).max_x - (boundsCollector es).min_x →
      0 < (boundsCollector es).max_y - (boundsCollector es).min_y →
      (reset_view es s w h).zoom_factor =
        min ((w - 80) / ((boundsCollector es).max_x - (boundsCollector es).min_x))
            ((h - 80) / ((boundsCollector es).max_y - (boundsCollector es).min_y))) := by
  constructor
  · intro s mouse zoomIn
    refine ⟨le_max_left _ _, max_le (by norm_num) (min_le_left _ _)⟩
  · intro es s w h hne hw hh
    simp only [reset_view, List.isEmpty_eq_true]
    rw [if_neg hne, if_pos ⟨hw, hh⟩]

/-- Witness for C3 amended: a wheel zoom-in from the initial state stays in
`[0.01, 100]`, and `reset_view` on a unit line in a 600×400 viewport stores
exactly `min (520 / 1) (320 / 1)`. -/
theorem c3_zoom_clamp_amended_witness :
    (1 / 100 ≤ (wheelEvent ⟨1, 0, 0⟩ (3, 4) true).zoom_factor ∧
      (wheelEvent ⟨1, 0, 0⟩ (3, 4) true).zoom_factor ≤ 100) ∧
    (reset_view [Entity.line (0, 0) (1, 1)] ⟨1, 0, 0⟩ 600 400).zoom_factor =
      min ((600 - 80) / ((boundsCollector [Entity.line (0, 0) (1, 1)]).max_x -
            (boundsCollector [Entity.line (0, 0) (1, 1)]).min_x))
          ((400 - 80) / ((boundsCollector [Entity.line (0, 0) (1, 1)]).max_y -
            (boundsCollector [Entity.line (0, 0) (1, 1)]).min_y)) :=
  ⟨c3_zoom_clamp_amended.1 ⟨1, 0, 0⟩ (3, 4) true,
    c3_zoom_clamp_amended.2 [Entity.line (0, 0) (1, 1)] ⟨1, 0, 0⟩ 600 400
      (by simp)
      (by norm_num [boundsCollector, xcoords, ycoords, entityXCoords, entityYCoords])
      (by norm_num [boundsCollector, xcoords, ycoords, entityXCoords, entityYCoords])⟩

/-- C6 counterexample: for the empty entity sequence the collected bounds
are the fallback box `(-100, -100, 100, 100)` — non-degenerate — yet
`reset_view` is a no-op (`if not self.dxf_entities: return`), so from the
initial view state the bounds' center `(0, 0)` maps to device `(0, 0)`, not
to the viewport center `(300, 200)`. -/
theorem c6_counterexample :
    boundsCollector [] = ⟨-100, -100, 100, 100⟩ ∧
    toDevice (reset_view [] ⟨1, 0, 0⟩ 600 400) (0, 0) = (0, 0) ∧
    ((0 : ℚ), (0 : ℚ)) ≠ ((600 : ℚ) / 2, (400 : ℚ) / 2) := by
  refine ⟨rfl, by norm_num [reset_view, toDevice], ?_⟩
  intro hcon
  have h1 := congrArg Prod.fst hcon
  norm_num at h1

/-- C6 amended: for every non-empty entity sequence with non-degenerate
bounds and every viewport size, after `reset_view` the forward transform
maps the bounds' center exactly to the viewport's center. -/
theorem c6_fit_centers (es : List Entity) (s : ViewState) (w h : ℚ)
    (hne : es ≠ [])
    (hw : 0 < (boundsCollector es).max_x - (boundsCollector es).min_x)
    (hh : 0 < (boundsCollector es).max_y - (boundsCollector es).min_y) :
    toDevice (reset_view es s w h)
      (((boundsCollector es).min_x + (boundsCollector es).max_x) / 2,
       ((boundsCollector es).min_y + (boundsCollector es).max_y) / 2) =
      (w / 2, h / 2) := by
  simp only [reset_view, List.isEmpty_eq_true]
  rw [if_neg hne]
  simp only [toDevice]
  rw [Prod.mk.injEq]
  exact ⟨by ring, by ring⟩

/-- Witness for C6 at a single line entity spanning `(0,0)–(10, 10)` in a
600×400 viewport: the bounds' center `(5, 5)` maps to `(300, 200)`. -/
theorem c6_fit_centers_witness :
    toDevice (reset_view [Entity.line (0, 0) (10, 10)] ⟨1, 0, 0⟩ 600 400)
      (((boundsCollector [Entity.line (0, 0) (10, 10)]).min_x +
          (boundsCollector [Entity.line (0, 0) (10, 10)]).max_x) / 2,
       ((boundsCollector [Entity.line (0, 0) (10, 10)]).min_y +
          (boundsCollector [Entity.line (0, 0) (10, 10)]).max_y) / 2) =
      (600 / 2, 400 / 2) :=
  c6_fit_centers [Entity.line (0, 0) (10, 10)] ⟨1, 0, 0⟩ 600 400
    (by simp)
    (by norm_num [boundsCollector, xcoords, ycoords, entityXCoords, entityYCoords])
    (by norm_num [boundsCollector, xcoords, ycoords, entityXCoords, entityYCoords])

/-- C2: `process_dxf_image` selects, among the three binarization
strategies, the one whose contour forest has the greatest contour count,
breaking ties by the fixed build order
[fixed inverted threshold, adaptive, Otsu]: the selected entry is the
inverted-threshold one exactly when its count is the maximum of the three,
otherwise the adaptive one exactly when its count is the maximum, otherwise
the Otsu one.  (Python's `sort(reverse=True)` is stable, so among equal
counts the entry built first stays first.) -/
theorem c2_threshold_selector (inv adapt otsu : List Contour) :
    processSelect inv adapt otsu =
      if inv.length = max inv.length (max adapt.length otsu.length) then
        { count := inv.length, contours := inv, name := "Umbral invertido" }
      else if adapt.length = max inv.length (max adapt.length otsu.length) then
        { count := adapt.length, contours := adapt, name := "Umbral adaptativo" }
      else
        { count := otsu.length, contours := otsu, name := "Umbral Otsu" } := by
  simp only [processSelect, pySortDesc, pyInsertDesc, Nat.max_def]
  split_ifs <;> (try simp only [pyInsertDesc]) <;> (try split_ifs) <;>
    (try simp only [List.headD_cons]) <;> first | rfl | (exfalso; omega)

/-- C5: when all three binarization strategies yield zero contours,
`dxf_to_morphology` on a valid input raster returns the defined empty
result: zero counts, zero totals and empty detail lists for both metric
tiers, tier images that are blanks carrying the explicit overlay
`NO SE ENCONTRARON CONTORNOS`, and no `contours`/`hierarchy` keys — and it
returns normally rather than raising. -/
theorem c5_no_contours_empty_result (inv adapt otsu : List Contour)
    (h1 : inv = []) (h2 : adapt = []) (h3 : otsu = []) :
    dxf_to_morphology true inv adapt otsu =
      { images :=
          { original := .fromInput
            binaria := .grayscale
            contornos_externos := .blank "NO SE ENCONTRARON CONTORNOS"
            contornos_internos := .blank "NO SE ENCONTRARON CONTORNOS"
            todos_contornos := .blank "NO SE ENCONTRARON CONTORNOS"
            contornos_rellenos := .grayscale }
        metrics := (⟨0, 0, 0, []⟩, ⟨0, 0, 0, []⟩)
        contoursKey := none
        hierarchyKey := none } := by
  subst h1 h2 h3
  rfl

/-- Witness for C5 at the three concretely empty forests. -/
theorem c5_no_contours_empty_result_witness :
    dxf_to_morphology true [] [] [] =
      { images :=
          { original := .fromInput
            binaria := .grayscale
            contornos_externos := .blank "NO SE ENCONTRARON CONTORNOS"
            contornos_internos := .blank "NO SE ENCONTRARON CONTORNOS"
            todos_contornos := .blank "NO SE ENCONTRARON CONTORNOS"
            contornos_rellenos := .grayscale }
        metrics := (⟨0, 0, 0, []⟩, ⟨0, 0, 0, []⟩)
        contoursKey := none
        hierarchyKey := none } :=
  c5_no_contours_empty_result [] [] [] rfl rfl rfl

/-- C7 counterexample: the centroid stored in a detail record is the
Python-`int` truncation of the moment quotient, not the quotient itself.
For a contour with `m00 = 2`, `m10 = 1` the code stores `centro_x = 0`
while the claimed value `m10/m00` is `1/2`. -/
theorem c7_counterexample :
    (detalleOf 0 ⟨-1, 3, 8, 2, 1, 1⟩).centro_x = 0 ∧
    ((detalleOf 0 ⟨-1, 3, 8, 2, 1, 1⟩).centro_x : ℚ) ≠
      (⟨-1, 3, 8, 2, 1, 1⟩ : Contour).m10 / (⟨-1, 3, 8, 2, 1, 1⟩ : Contour).m00 := by
  have h : (detalleOf 0 ⟨-1, 3, 8, 2, 1, 1⟩).centro_x = 0 := by
    norm_num [detalleOf, pyInt]
  refine ⟨h, ?_⟩
  rw [h]
  norm_num

/-- C7 amended: per-contour metrics never divide by zero — circularity is
`4π·area/perimeter²` when the perimeter is positive and `0` when it is `0`,
and the centroid is `(0, 0)` when the zeroth moment is `0` and otherwise
the *integer truncations* `(int(m10/m00), int(m01/m00))` of the moment
quotients (`π` being the double-precision constant `np.pi`). -/
theorem c7_region_metrics_amended (idx : ℕ) (c : Contour) :
    (0 < c.per → (detalleOf idx c).circularidad = 4 * npPi * c.area / (c.per * c.per)) ∧
    (c.per = 0 → (detalleOf idx c).circularidad = 0) ∧
    (c.m00 = 0 → (detalleOf idx c).centro_x = 0 ∧ (detalleOf idx c).centro_y = 0) ∧
    (c.m00 ≠ 0 → (detalleOf idx c).centro_x = pyInt (c.m10 / c.m00) ∧
      (detalleOf idx c).centro_y = pyInt (c.m01 / c.m00)) := by
  refine ⟨fun hp => ?_, fun hp => ?_, fun hm => ?_, fun hm => ?_⟩
  · simp only [detalleOf, if_pos hp]
  · simp only [detalleOf, hp, lt_irrefl, if_false]
  · simp only [detalleOf, hm, ne_eq, not_true_eq_false, if_false]
    exact ⟨trivial, trivial⟩
  · simp only [detalleOf, ne_eq, hm, not_false_eq_true, if_true]
    exact ⟨trivial, trivial⟩

/-- Witness for C7 amended at a contour with positive perimeter and nonzero
zeroth moment. -/
theorem c7_region_metrics_amended_witness :
    (detalleOf 0 ⟨-1, 3, 8, 2, 1, 1⟩).circularidad = 4 * npPi * 3 / (8 * 8) ∧
    (detalleOf 0 ⟨-1, 3, 8, 2, 1, 1⟩).centro_x = pyInt (1 / 2) :=
  ⟨(c7_region_metrics_amended 0 ⟨-1, 3, 8, 2, 1, 1⟩).1 (by norm_num),
    ((c7_region_metrics_amended 0 ⟨-1, 3, 8, 2, 1, 1⟩).2.2.2 (by norm_num)).1⟩

/-- Monotonicity of Python `int` truncation. -/
theorem pyInt_mono {q r : ℚ} (h : q ≤ r) : pyInt q ≤ pyInt r := by
  unfold pyInt
  split_ifs with hq hr hr
  · exact Int.floor_le_floor h
  · exact absurd (hq.trans h) hr
  · have h1 : (0 : ℤ) ≤ ⌊-q⌋ := Int.floor_nonneg.2 (by linarith)
    have h2 : (0 : ℤ) ≤ ⌊r⌋ := Int.floor_nonneg.2 hr
    omega
  · have : ⌊-r⌋ ≤ ⌊-q⌋ := Int.floor_le_floor (by linarith)
    omega

/-- C9 counterexample: the arc sample count is computed from the
scene-space radius, not the device-space radius.  Doubling the zoom factor
(from 1 to 2) leaves the step count of the arc of radius 100 spanning 1
radian unchanged at 50, so the count does not strictly increase with
zoom. -/
theorem c9_counterexample :
    (⟨1, 0, 0⟩ : ViewState).zoom_factor < (⟨2, 0, 0⟩ : ViewState).zoom_factor ∧
    drawEntityArcSteps ⟨1, 0, 0⟩ 100 0 1 = drawEntityArcSteps ⟨2, 0, 0⟩ 100 0 1 ∧
    drawEntityArcSteps ⟨1, 0, 0⟩ 100 0 1 = 50 := by
  refine ⟨by norm_num, rfl, ?_⟩
  norm_num [drawEntityArcSteps, pyInt]

/-- C9 amended: the arc sample count depends only on the scene-space radius
and the angular span — it is invariant under any change of the view state
(in particular of `zoom_factor`) — and it is monotone in the scene-space
radius. -/
theorem c9_arc_steps_amended (s t : ViewState) (r r' startRad endRad : ℚ)
    (hr : r ≤ r') :
    drawEntityArcSteps s r startRad endRad = drawEntityArcSteps t r startRad endRad ∧
    drawEntityArcSteps s r startRad endRad ≤ drawEntityArcSteps s r' startRad endRad := by
  refine ⟨rfl, ?_⟩
  simp only [drawEntityArcSteps]
  refine max_le_max le_rfl (pyInt_mono ?_)
  have habs : 0 ≤ |(if endRad < startRad then endRad + 2 * npPi else endRad) - startRad| :=
    abs_nonneg _
  nlinarith

/-- Witness for C9 amended: zoom change 1 → 2 leaves the count unchanged,
and growing the radius 100 → 200 does not decrease it. -/
theorem c9_arc_steps_amended_witness :
    drawEntityArcSteps ⟨1, 0, 0⟩ 100 0 1 = drawEntityArcSteps ⟨2, 0, 0⟩ 100 0 1 ∧
    drawEntityArcSteps ⟨1, 0, 0⟩ 100 0 1 ≤ drawEntityArcSteps ⟨1, 0, 0⟩ 200 0 1 := by
  have h := c9_arc_steps_amended ⟨1, 0, 0⟩ ⟨2, 0, 0⟩ 100 200 0 1 (by norm_num)
  exact h

/-- C10: the result dictionary of `dxf_to_morphology` has a non-uniform key
set.  On the no-contours path it carries no `contours`/`hierarchy` keys; on
the success path it carries both (`hierarchy` holding the parent table); on
the caught-exception error path it carries both, with values `[]` and
`None`. -/
theorem c10_result_shape (valid : Bool) (inv adapt otsu : List Contour) :
    (valid = true → (process_dxf_image inv adapt otsu).1 = [] →
      (dxf_to_morphology valid inv adapt otsu).contoursKey = none ∧
      (dxf_to_morphology valid inv adapt otsu).hierarchyKey = none) ∧
    (valid = true → (process_dxf_image inv adapt otsu).1 ≠ [] →
      (dxf_to_morphology valid inv adapt otsu).contoursKey =
          some (process_dxf_image inv adapt otsu).1 ∧
      (dxf_to_morphology valid inv adapt otsu).hierarchyKey =
          some (process_dxf_image inv adapt otsu).2) ∧
    (valid = false →
      (dxf_to_morphology valid inv adapt otsu).contoursKey = some [] ∧
      (dxf_to_morphology valid inv adapt otsu).hierarchyKey = some none) := by
  refine ⟨fun hv he => ?_, fun hv he => ?_, fun hv => ?_⟩
  · subst hv
    simp [dxf_to_morphology, he]
  · subst hv
    simp [dxf_to_morphology, he]
  · subst hv
    simp [dxf_to_morphology]

/-- Witness for C10 on all three paths: empty forests on a valid input (no
keys), one nonempty forest on a valid input (both keys), and an invalid
input (both keys, hierarchy `None`). -/
theorem c10_result_shape_witness :
    ((dxf_to_morphology true [] [] []).contoursKey = none ∧
      (dxf_to_morphology true [] [] []).hierarchyKey = none) ∧
    ((dxf_to_morphology true [⟨-1, 1, 1, 1, 1, 1⟩] [] []).contoursKey =
        some (process_dxf_image [⟨-1, 1, 1, 1, 1, 1⟩] [] []).1 ∧
      (dxf_to_morphology true [⟨-1, 1, 1, 1, 1, 1⟩] [] []).hierarchyKey =
        some (process_dxf_image [⟨-1, 1, 1, 1, 1, 1⟩] [] []).2) ∧
    ((dxf_to_morphology false [] [] []).contoursKey = some [] ∧
      (dxf_to_morphology false [] [] []).hierarchyKey = some none) :=
  ⟨(c10_result_shape true [] [] []).1 rfl rfl,
    (c10_result_shape true [⟨-1, 1, 1, 1, 1, 1⟩] [] []).2.1 rfl
      (by simp [process_dxf_image, processSelect, pySortDesc, pyInsertDesc]),
    (c10_result_shape false [] [] []).2.2 rfl⟩

/-- A left fold of `min` is bounded by its starting value. -/
theorem foldl_min_le_start (l : List ℚ) (a : ℚ) : l.foldl min a ≤ a := by
  induction l generalizing a with
  | nil => exact le_rfl
  | cons x xs ih =>
      exact le_trans (ih (min a x)) (min_le_left a x)

/-- A left fold of `min` is bounded by every list element. -/
theorem foldl_min_le_mem (l : List ℚ) (a z : ℚ) (hz : z ∈ l) : l.foldl min a ≤ z := by
  induction l generalizing a with
  | nil => cases hz
  | cons x xs ih =>
      rcases List.mem_cons.mp hz with h | h
      · subst h
        exact le_trans (foldl_min_le_start xs (min a z)) (min_le_right a z)
      · exact ih (min a x) h

/-- A left fold of `min` yields its starting value or a list element. -/
theorem foldl_min_mem (l : List ℚ) (a : ℚ) : l.foldl min a = a ∨ l.foldl min a ∈ l := by
  induction l generalizing a with
  | nil => exact Or.inl rfl
  | cons x xs ih =>
      rcases ih (min a x) with h | h
      · rcases min_cases a x with ⟨h1, _⟩ | ⟨h1, _⟩
        · exact Or.inl (by rw [List.foldl_cons, h, h1])
        · refine Or.inr ?_
          rw [List.foldl_cons, h, h1]
          exact List.mem_cons_self x xs
      · exact Or.inr (List.mem_cons_of_mem x h)

/-- A left fold of `max` is bounded below by its starting value. -/
theorem foldl_max_ge_start (l : List ℚ) (a : ℚ) : a ≤ l.foldl max a := by
  induction l generalizing a with
  | nil => exact le_rfl
  | cons x xs ih =>
      exact le_trans (le_max_left a x) (ih (max a x))

/-- A left fold of `max` is bounded below by every list element. -/
theorem foldl_max_ge_mem (l : List ℚ) (a z : ℚ) (hz : z ∈ l) : z ≤ l.foldl max a := by
  induction l generalizing a with
  | nil => cases hz
  | cons x xs ih =>
      rcases List.mem_cons.mp hz with h | h
      · subst h
        exact le_trans (le_max_right a z) (foldl_max_ge_start xs (max a z))
      · exact ih (max a x) h

/-- A left fold of `max` yields its starting value or a list element. -/
theorem foldl_max_mem (l : List ℚ) (a : ℚ) : l.foldl max a = a ∨ l.foldl max a ∈ l := by
  induction l generalizing a with
  | nil => exact Or.inl rfl
  | cons x xs ih =>
      rcases ih (max a x) with h | h
      · rcases max_cases a x with ⟨h1, _⟩ | ⟨h1, _⟩
        · exact Or.inl (by rw [List.foldl_cons, h, h1])
        · refine Or.inr ?_
          rw [List.foldl_cons, h, h1]
          exact List.mem_cons_self x xs
      · exact Or.inr (List.mem_cons_of_mem x h)

/-- C8 counterexample: a single POINT entity at `(5, 7)` contributes one
coordinate per axis, so `load_dxf` stores the degenerate bounds
`(5, 7, 5, 7)` (zero extent on both axes) — not the fallback box — refuting
the claim that degenerate bounds are replaced by `[-100, -100, 100, 100]`. -/
theorem c8_counterexample :
    boundsCollector [Entity.point (5, 7)] = ⟨5, 7, 5, 7⟩ ∧
    boundsCollector [Entity.point (5, 7)] ≠ ⟨-100, -100, 100, 100⟩ ∧
    (boundsCollector [Entity.point (5, 7)]).max_x -
        (boundsCollector [Entity.point (5, 7)]).min_x = 0 := by
  have h : boundsCollector [Entity.point (5, 7)] = ⟨5, 7, 5, 7⟩ := rfl
  refine ⟨h, ?_, ?_⟩
  · rw [h]
    intro hcon
    have h1 := congrArg Bounds.min_x hcon
    norm_num at h1
  · rw [h]
    norm_num

/-- C8 amended: the fallback box `(-100, -100, 100, 100)` is returned
exactly when the collected coordinate lists are empty (in particular for the
empty entity sequence); when they are non-empty the stored bounds are the
true minima/maxima of the collected coordinates — even when degenerate. -/
theorem c8_bounds_fallback_amended (es : List Entity) :
    (xcoords es = [] ∨ ycoords es = [] →
      boundsCollector es = ⟨-100, -100, 100, 100⟩) ∧
    (xcoords es ≠ [] → ycoords es ≠ [] →
      ((boundsCollector es).min_x ∈ xcoords es ∧
        ∀ z ∈ xcoords es, (boundsCollector es).min_x ≤ z) ∧
      ((boundsCollector es).max_x ∈ xcoords es ∧
        ∀ z ∈ xcoords es, z ≤ (boundsCollector es).max_x) ∧
      ((boundsCollector es).min_y ∈ ycoords es ∧
        ∀ z ∈ ycoords es, (boundsCollector es).min_y ≤ z) ∧
      ((boundsCollector es).max_y ∈ ycoords es ∧
        ∀ z ∈ ycoords es, z ≤ (boundsCollector es).max_y)) := by
  constructor
  · rintro (h | h)
    · rcases hy : ycoords es with _ | ⟨y, ys⟩ <;> simp [boundsCollector, h, hy]
    · rcases hx : xcoords es with _ | ⟨x, xs⟩ <;> simp [boundsCollector, h, hx]
  · intro hx hy
    rcases hxe : xcoords es with _ | ⟨x, xs⟩
    · exact absurd hxe hx
    rcases hye : ycoords es with _ | ⟨y, ys⟩
    · exact absurd hye hy
    simp only [boundsCollector, hxe, hye]
    refine ⟨⟨?_, ?_⟩, ⟨?_, ?_⟩, ⟨?_, ?_⟩, ⟨?_, ?_⟩⟩
    · rcases foldl_min_mem xs x with h | h
      · rw [h]; exact List.mem_cons_self x xs
      · exact List.mem_cons_of_mem x h
    · intro z hz
      rcases List.mem_cons.mp hz with h | h
      · rw [h]; exact foldl_min_le_start xs x
      · exact foldl_min_le_mem xs x z h
    · rcases foldl_max_mem xs x with h | h
      · rw [h]; exact List.mem_cons_self x xs
      · exact List.mem_cons_of_mem x h
    · intro z hz
      rcases List.mem_cons.mp hz with h | h
      · rw [h]; exact foldl_max_ge_start xs x
      · exact foldl_max_ge_mem xs x z h
    · rcases foldl_min_mem ys y with h | h
      · rw [h]; exact List.mem_cons_self y ys
      · exact List.mem_cons_of_mem y h
    · intro z hz
      rcases List.mem_cons.mp hz with h | h
      · rw [h]; exact foldl_min_le_start ys y
      · exact foldl_min_le_mem ys y z h
    · rcases foldl_max_mem ys y with h | h
      · rw [h]; exact List.mem_cons_self y ys
      · exact List.mem_cons_of_mem y h
    · intro z hz
      rcases List.mem_cons.mp hz with h | h
      · rw [h]; exact foldl_max_ge_start ys y
      · exact foldl_max_ge_mem ys y z h

/-- Witness for C8 amended: the empty sequence yields the fallback box, and
the single POINT at `(5, 7)` yields stored minima that belong to the
collected coordinates. -/
theorem c8_bounds_fallback_amended_witness :
    boundsCollector [] = ⟨-100, -100, 100, 100⟩ ∧
    ((boundsCollector [Entity.point (5, 7)]).min_x ∈ xcoords [Entity.point (5, 7)] ∧
      ∀ z ∈ xcoords [Entity.point (5, 7)],
        (boundsCollector [Entity.point (5, 7)]).min_x ≤ z) :=
  ⟨(c8_bounds_fallback_amended []).1 (Or.inl rfl),
    ((c8_bounds_fallback_amended [Entity.point (5, 7)]).2
      (by simp [xcoords, entityXCoords]) (by simp [ycoords, entityYCoords])).1⟩

/-- If no parentless contour of `l` has area strictly above the running
maximum `A`, the main-exterior scan leaves its accumulator unchanged. -/
theorem scanMain_const (l : List Contour) : ∀ (i : ℕ) (A : ℚ) (k : ℤ),
    (∀ j, j < l.length → (l.getD j defaultContour).parent = -1 →
      (l.getD j defaultContour).area ≤ A) →
    scanMain l i A k = (A, k) := by
  induction l with
  | nil => intro i A k _; rfl
  | cons c cs ih =>
      intro i A k h
      have hcond : ¬(c.parent = -1 ∧ A < c.area) := by
        rintro ⟨hp, ha⟩
        have h0 := h 0 (Nat.succ_pos _) (by rw [List.getD_cons_zero]; exact hp)
        rw [List.getD_cons_zero] at h0
        exact absurd ha (not_lt.mpr h0)
      simp only [scanMain]
      rw [if_neg hcond]
      refine ih (i + 1) A k fun j hj hp => ?_
      have h1 := h (j + 1) (Nat.succ_lt_succ hj)
        (by rw [List.getD_cons_succ]; exact hp)
      rwa [List.getD_cons_succ] at h1

/-- Full characterization of the main-exterior scan when some parentless
contour beats the running maximum: the scan returns the area and absolute
index of the first parentless contour of maximal area (strict improvement
only, so earlier contours of equal area win). -/
theorem scanMain_found (l : List Contour) : ∀ (i : ℕ) (A : ℚ) (k : ℤ),
    (∃ j, j < l.length ∧ (l.getD j defaultContour).parent = -1 ∧
      A < (l.getD j defaultContour).area) →
    ∃ m, m < l.length ∧
      scanMain l i A k = ((l.getD m defaultContour).area, (i : ℤ) + m) ∧
      (l.getD m defaultContour).parent = -1 ∧
      A < (l.getD m defaultContour).area ∧
      (∀ j, j < l.length → (l.getD j defaultContour).parent = -1 →
        (l.getD j defaultContour).area ≤ (l.getD m defaultContour).area) ∧
      (∀ j, j < m → (l.getD j defaultContour).parent = -1 →
        (l.getD j defaultContour).area < (l.getD m defaultContour).area) := by
  induction l with
  | nil =>
      intro i A k h
      obtain ⟨j, hj, _⟩ := h
      exact absurd hj (Nat.not_lt_zero j)
  | cons c cs ih =>
      intro i A k h
      by_cases hcond : c.parent = -1 ∧ A < c.area
      · simp only [scanMain]
        rw [if_pos hcond]
        by_cases h2 : ∃ j, j < cs.length ∧ (cs.getD j defaultContour).parent = -1 ∧
            c.area < (cs.getD j defaultContour).area
        · obtain ⟨m', hlt, heq, hpar, hgt, hmax, hstrict⟩ := ih (i + 1) c.area (i : ℤ) h2
          refine ⟨m' + 1, Nat.succ_lt_succ hlt, ?_, ?_, ?_, ?_, ?_⟩
          · rw [heq, Prod.mk.injEq]
            refine ⟨by rw [List.getD_cons_succ], by push_cast; ring⟩
          · rwa [List.getD_cons_succ]
          · rw [List.getD_cons_succ]
            exact lt_trans hcond.2 hgt
          · intro j hj hp
            cases j with
            | zero =>
                rw [List.getD_cons_succ]
                rw [List.getD_cons_zero] at hp ⊢
                exact le_of_lt hgt
            | succ j1 =>
                rw [List.getD_cons_succ] at hp ⊢
                rw [List.getD_cons_succ]
                exact hmax j1 (Nat.lt_of_succ_lt_succ hj) hp
          · intro j hj hp
            cases j with
            | zero =>
                rw [List.getD_cons_succ]
                rw [List.getD_cons_zero] at hp ⊢
                exact hgt
            | succ j1 =>
                rw [List.getD_cons_succ] at hp ⊢
                rw [List.getD_cons_succ]
                exact hstrict j1 (Nat.lt_of_succ_lt_succ hj) hp
        · push_neg at h2
          have hconst : scanMain cs (i + 1) c.area (i : ℤ) = (c.area, (i : ℤ)) :=
            scanMain_const cs (i + 1) c.area (i : ℤ) h2
          refine ⟨0, Nat.succ_pos _, ?_, ?_, ?_, ?_, ?_⟩
          · rw [hconst, Prod.mk.injEq]
            refine ⟨by rw [List.getD_cons_zero], by push_cast; ring⟩
          · rw [List.getD_cons_zero]; exact hcond.1
          · rw [List.getD_cons_zero]; exact hcond.2
          · intro j hj hp
            cases j with
            | zero =>
                rw [List.getD_cons_zero]
            | succ j1 =>
                rw [List.getD_cons_succ] at hp ⊢
                rw [List.getD_cons_zero]
                exact h2 j1 (Nat.lt_of_succ_lt_succ hj) hp
          · intro j hj
            exact absurd hj (Nat.not_lt_zero j)
      · simp only [scanMain]
        rw [if_neg hcond]
        have h' : ∃ j, j < cs.length ∧ (cs.getD j defaultContour).parent = -1 ∧
            A < (cs.getD j defaultContour).area := by
          obtain ⟨j, hj, hp, ha⟩ := h
          cases j with
          | zero =>
              rw [List.getD_cons_zero] at hp ha
              exact absurd ⟨hp, ha⟩ hcond
          | succ j1 =>
              rw [List.getD_cons_succ] at hp ha
              exact ⟨j1, Nat.lt_of_succ_lt_succ hj, hp, ha⟩
        obtain ⟨m', hlt, heq, hpar, hgt, hmax, hstrict⟩ := ih (i + 1) A k h'
        refine ⟨m' + 1, Nat.succ_lt_succ hlt, ?_, ?_, ?_, ?_, ?_⟩
        · rw [heq, Prod.mk.injEq]
          refine ⟨by rw [List.getD_cons_succ], by push_cast; ring⟩
        · rwa [List.getD_cons_succ]
        · rwa [List.getD_cons_succ]
        · intro j hj hp
          cases j with
          | zero =>
              rw [List.getD_cons_succ]
              rw [List.getD_cons_zero] at hp ⊢
              have hle : c.area ≤ A := not_lt.mp fun hlt2 => hcond ⟨hp, hlt2⟩
              exact le_of_lt (lt_of_le_of_lt hle hgt)
          | succ j1 =>
              rw [List.getD_cons_succ] at hp ⊢
              rw [List.getD_cons_succ]
              exact hmax j1 (Nat.lt_of_succ_lt_succ hj) hp
        · intro j hj hp
          cases j with
          | zero =>
              rw [List.getD_cons_succ]
              rw [List.getD_cons_zero] at hp ⊢
              have hle : c.area ≤ A := not_lt.mp fun hlt2 => hcond ⟨hp, hlt2⟩
              exact lt_of_le_of_lt hle hgt
          | succ j1 =>
              rw [List.getD_cons_succ] at hp ⊢
              rw [List.getD_cons_succ]
              exact hstrict j1 (Nat.lt_of_succ_lt_succ hj) hp

/-- Membership characterization of the hole-collection loop: an index is in
`holeIndices` exactly when it is in range and its contour's parent equals
the computed main-exterior index. -/
theorem mem_holeIndices_iff (cs : List Contour) (i : ℕ) :
    i ∈ holeIndices cs ↔
      i < cs.length ∧ (cs.getD i defaultContour).parent = mainExteriorIdx cs := by
  unfold holeIndices
  constructor
  · intro hmem
    obtain ⟨p, hp, hpi⟩ := List.mem_map.mp hmem
    obtain ⟨hpe, hpf⟩ := List.mem_filter.mp hp
    have h1 : cs[p.1]? = some p.2 := List.mk_mem_enum_iff_getElem?.mp hpe
    obtain ⟨hlen, hget⟩ := List.getElem?_eq_some.mp h1
    subst hpi
    refine ⟨hlen, ?_⟩
    rw [List.getD_eq_getElem cs defaultContour hlen, hget]
    exact of_decide_eq_true hpf
  · rintro ⟨hlen, hpar⟩
    refine List.mem_map.mpr ⟨(i, cs.getD i defaultContour), ?_, rfl⟩
    refine List.mem_filter.mpr ⟨?_, ?_⟩
    · apply List.mk_mem_enum_iff_getElem?.mpr
      rw [List.getD_eq_getElem cs defaultContour hlen]
      exact List.getElem?_eq_getElem hlen
    · exact decide_eq_true hpar

/-- Membership characterization of the hole-children loop: an index is in
`holeChildIndices` exactly when it is in range and its contour's parent is
(the cast of) some member of `holeIndices`. -/
theorem mem_holeChildIndices_iff (cs : List Contour) (i : ℕ) :
    i ∈ holeChildIndices cs ↔
      i < cs.length ∧ ∃ j ∈ holeIndices cs,
        (j : ℤ) = (cs.getD i defaultContour).parent := by
  unfold holeChildIndices
  constructor
  · intro hmem
    obtain ⟨p, hp, hpi⟩ := List.mem_map.mp hmem
    obtain ⟨hpe, hpf⟩ := List.mem_filter.mp hp
    have h1 : cs[p.1]? = some p.2 := List.mk_mem_enum_iff_getElem?.mp hpe
    obtain ⟨hlen, hget⟩ := List.getElem?_eq_some.mp h1
    subst hpi
    obtain ⟨j, hj, hj2⟩ := List.any_eq_true.mp hpf
    refine ⟨hlen, j, hj, ?_⟩
    rw [List.getD_eq_getElem cs defaultContour hlen, hget]
    exact of_decide_eq_true hj2
  · rintro ⟨hlen, j, hj, hj2⟩
    refine List.mem_map.mpr ⟨(i, cs.getD i defaultContour), ?_, rfl⟩
    refine List.mem_filter.mpr ⟨?_, ?_⟩
    · apply List.mk_mem_enum_iff_getElem?.mpr
      rw [List.getD_eq_getElem cs defaultContour hlen]
      exact List.getElem?_eq_getElem hlen
    · exact List.any_eq_true.mpr ⟨j, hj, decide_eq_true hj2⟩

/-- C4 counterexample: with the forest consisting of a single parentless
contour of area 0, the classifier starts from `max_area = 0` with a strict
comparison, so no main exterior is selected (`main_exterior_index` stays
`-1`) — instead of index 0, the first (and only) parentless contour — and
the hole set then wrongly contains that parentless contour itself (every
parent `-1` matches `main_exterior_index = -1`). -/
theorem c4_counterexample :
    mainExteriorIdx [⟨-1, 0, 0, 0, 0, 0⟩] = -1 ∧
    mainExteriorIdx [⟨-1, 0, 0, 0, 0, 0⟩] ≠ 0 ∧
    holeIndices [⟨-1, 0, 0, 0, 0, 0⟩] = [0] := by
  have h1 : mainExteriorIdx [(⟨-1, 0, 0, 0, 0, 0⟩ : Contour)] = -1 := by
    norm_num [mainExteriorIdx, scanMain]
  refine ⟨h1, by rw [h1]; norm_num, ?_⟩
  norm_num [holeIndices, h1, List.enum, List.enumFrom, List.filter]

/-- C4 amended: whenever some parentless contour has positive area, the
classifier selects as main exterior the first parentless contour of maximal
area (strict greater-than, so the earliest of equal maxima wins), the hole
set is exactly the in-range indices whose parent equals the main exterior's
index, and the hole-child set is exactly the in-range indices whose parent
is a member of the hole set.  (When every parentless contour has area 0 the
scan selects nothing — index -1 — as the counterexample shows.) -/
theorem c4_classifier_amended (cs : List Contour)
    (h : ∃ j, j < cs.length ∧ (cs.getD j defaultContour).parent = -1 ∧
      0 < (cs.getD j defaultContour).area) :
    ∃ kn, kn < cs.length ∧
      mainExteriorIdx cs = (kn : ℤ) ∧
      (cs.getD kn defaultContour).parent = -1 ∧
      (∀ j, j < cs.length → (cs.getD j defaultContour).parent = -1 →
        (cs.getD j defaultContour).area ≤ (cs.getD kn defaultContour).area) ∧
      (∀ j, j < kn → (cs.getD j defaultContour).parent = -1 →
        (cs.getD j defaultContour).area < (cs.getD kn defaultContour).area) ∧
      (∀ i, i ∈ holeIndices cs ↔
        i < cs.length ∧ (cs.getD i defaultContour).parent = (kn : ℤ)) ∧
      (∀ i, i ∈ holeChildIndices cs ↔
        i < cs.length ∧ ∃ j ∈ holeIndices cs,
          (cs.getD i defaultContour).parent = (j : ℤ)) := by
  obtain ⟨m, hlt, heq, hpar, _hgt, hmax, hstrict⟩ := scanMain_found cs 0 0 (-1) h
  have hmain : mainExteriorIdx cs = (m : ℤ) := by
    unfold mainExteriorIdx
    rw [heq]
    simp
  refine ⟨m, hlt, hmain, hpar, hmax, hstrict, ?_, ?_⟩
  · intro i
    rw [mem_holeIndices_iff, hmain]
  · intro i
    rw [mem_holeChildIndices_iff]
    constructor
    · rintro ⟨h1, j, hj, hj2⟩
      exact ⟨h1, j, hj, hj2.symm⟩
    · rintro ⟨h1, j, hj, hj2⟩
      exact ⟨h1, j, hj, hj2.symm⟩

/-- Witness for C4 amended at the forest
[parentless contour of area 10, hole with parent 0, hole child with
parent 1]. -/
theorem c4_classifier_amended_witness :
    ∃ kn,
      kn < ([⟨-1, 10, 0, 0, 0, 0⟩, ⟨0, 3, 0, 0, 0, 0⟩,
        ⟨1, 1, 0, 0, 0, 0⟩] : List Contour).length ∧
      mainExteriorIdx [⟨-1, 10, 0, 0, 0, 0⟩, ⟨0, 3, 0, 0, 0, 0⟩,
        ⟨1, 1, 0, 0, 0, 0⟩] = (kn : ℤ) ∧
      (([⟨-1, 10, 0, 0, 0, 0⟩, ⟨0, 3, 0, 0, 0, 0⟩,
        ⟨1, 1, 0, 0, 0, 0⟩] : List Contour).getD kn defaultContour).parent = -1 ∧
      (∀ j, j < ([⟨-1, 10, 0, 0, 0, 0⟩, ⟨0, 3, 0, 0, 0, 0⟩,
          ⟨1, 1, 0, 0, 0, 0⟩] : List Contour).length →
        (([⟨-1, 10, 0, 0, 0, 0⟩, ⟨0, 3, 0, 0, 0, 0⟩,
          ⟨1, 1, 0, 0, 0, 0⟩] : List Contour).getD j defaultContour).parent = -1 →
        (([⟨-1, 10, 0, 0, 0, 0⟩, ⟨0, 3, 0, 0, 0, 0⟩,
          ⟨1, 1, 0, 0, 0, 0⟩] : List Contour).getD j defaultContour).area ≤
          (([⟨-1, 10, 0, 0, 0, 0⟩, ⟨0, 3, 0, 0, 0, 0⟩,
            ⟨1, 1, 0, 0, 0, 0⟩] : List Contour).getD kn defaultContour).area) ∧
      (∀ j, j < kn →
        (([⟨-1, 10, 0, 0, 0, 0⟩, ⟨0, 3, 0, 0, 0, 0⟩,
          ⟨1, 1, 0, 0, 0, 0⟩] : List Contour).getD j defaultContour).parent = -1 →
        (([⟨-1, 10, 0, 0, 0, 0⟩, ⟨0, 3, 0, 0, 0, 0⟩,
          ⟨1, 1, 0, 0, 0, 0⟩] : List Contour).getD j defaultContour).area <
          (([⟨-1, 10, 0, 0, 0, 0⟩, ⟨0, 3, 0, 0, 0, 0⟩,
            ⟨1, 1, 0, 0, 0, 0⟩] : List Contour).getD kn defaultContour).area) ∧
      (∀ i, i ∈ holeIndices [⟨-1, 10, 0, 0, 0, 0⟩, ⟨0, 3, 0, 0, 0, 0⟩,
          ⟨1, 1, 0, 0, 0, 0⟩] ↔
        i < ([⟨-1, 10, 0, 0, 0, 0⟩, ⟨0, 3, 0, 0, 0, 0⟩,
          ⟨1, 1, 0, 0, 0, 0⟩] : List Contour).length ∧
        (([⟨-1, 10, 0, 0, 0, 0⟩, ⟨0, 3, 0, 0, 0, 0⟩,
          ⟨1, 1, 0, 0, 0, 0⟩] : List Contour).getD i defaultContour).parent = (kn : ℤ)) ∧
      (∀ i, i ∈ holeChildIndices [⟨-1, 10, 0, 0, 0, 0⟩, ⟨0, 3, 0, 0, 0, 0⟩,
          ⟨1, 1, 0, 0, 0, 0⟩] ↔
        i < ([⟨-1, 10, 0, 0, 0, 0⟩, ⟨0, 3, 0, 0, 0, 0⟩,
          ⟨1, 1, 0, 0, 0, 0⟩] : List Contour).length ∧
        ∃ j ∈ holeIndices [⟨-1, 10, 0, 0, 0, 0⟩, ⟨0, 3, 0, 0, 0, 0⟩,
          ⟨1, 1, 0, 0, 0, 0⟩],
          (([⟨-1, 10, 0, 0, 0, 0⟩, ⟨0, 3, 0, 0, 0, 0⟩,
            ⟨1, 1, 0, 0, 0, 0⟩] : List Contour).getD i defaultContour).parent = (j : ℤ)) :=
  c4_classifier_amended
    [⟨-1, 10, 0, 0, 0, 0⟩, ⟨0, 3, 0, 0, 0, 0⟩, ⟨1, 1, 0, 0, 0, 0⟩]
    ⟨0, by norm_num, by norm_num, by norm_num⟩

end DXFViewer
